import Mathlib

/-!
Shallow embedding of the single-file Go HTTP todo server (`main.go`) and
proofs about it: the in-memory `Store`, the `Metrics` collector, the request
router built on `http.ServeMux`, and the logging / metrics middleware.

Go pointers are modelled explicitly: records live in a `heap` keyed by the
address they were allocated at, and the store's `todos` map is a set of live
keys whose pointer for key `id` is the address `id` (`Create` allocates the
new record at address `s.next`, which is also the new record's id, and ids
are never reused, so addresses are never reused either).  A record stays in
the heap after `Delete` removes its map entry, just as a Go record stays
reachable through any pointer a caller still holds.
-/

set_option maxHeartbeats 1000000

namespace TodoSrv

/-- The Go struct `Todo` (`ID`, `Title`, `Completed`). -/
structure Todo where
  id : Int
  title : String
  completed : Bool
deriving Repr, DecidableEq

/-- The Go struct `Store`: `todos map[int]*Todo` and `next int`.
`heap` holds every record ever allocated, keyed by address; `live` is the
key set of the `todos` map; `next` is the id counter (starts at 1). -/
structure Store where
  heap : List (Int × Todo)
  live : List Int
  next : Int
deriving Repr, DecidableEq

/-- Dereference: the record currently stored at an address (first match). -/
def heapLookup : List (Int × Todo) → Int → Option Todo
  | [], _ => none
  | (a, t) :: rest, x => if a = x then some t else heapLookup rest x

/-- In-place mutation through a pointer: overwrite the record at an address
(first match), leaving every other allocation untouched. -/
def heapSet : List (Int × Todo) → Int → Todo → List (Int × Todo)
  | [], _, _ => []
  | (a, t) :: rest, x, v => if a = x then (a, v) :: rest else (a, t) :: heapSet rest x v

/-- `NewStore()`: empty map, counter at 1. -/
def NewStore : Store := { heap := [], live := [], next := 1 }

/-- Dereference a `*Todo` held by a caller. -/
def Store.deref (st : Store) (a : Int) : Option Todo := heapLookup st.heap a

/-- `s.todos[id]`: the map holds only live keys, and the pointer stored under
key `id` points at address `id`; the content read through it is the heap
record.  This is `Store.Get` without the lock. -/
def Store.get (st : Store) (id : Int) : Option Todo :=
  if id ∈ st.live then heapLookup st.heap id else none

/-- `Store.List`: builds a fresh slice and appends one pointer per record in
the map.  The slice is new, the pointers are the store's own. -/
def Store.list (st : Store) : List Int := st.live

/-- `len(s.todos)`. -/
def Store.size (st : Store) : Nat := st.live.length

/-- `Store.Create`: allocate `&Todo{ID: s.next, Title: title}` (freshly, at
address `s.next`), insert it under key `s.next`, advance the counter, and
return the created record (whose address equals its id). -/
def Store.create (st : Store) (title : String) : Todo × Store :=
  let t : Todo := { id := st.next, title := title, completed := false }
  (t, { heap := (st.next, t) :: st.heap, live := st.next :: st.live, next := st.next + 1 })

/-- `Store.Update`: look the id up; if absent return failure; if present
mutate the record in place through the pointer (`t.Title = title;
t.Completed = completed`) and return it. -/
def Store.update (st : Store) (id : Int) (title : String) (completed : Bool) :
    Option Todo × Store :=
  match st.get id with
  | none => (none, st)
  | some t =>
    let t' : Todo := { t with title := title, completed := completed }
    (some t', { st with heap := heapSet st.heap id t' })

/-- `Store.Delete`: if the key is present remove the map entry (the record
itself stays wherever pointers still reach it) and report success. -/
def Store.delete (st : Store) (id : Int) : Bool × Store :=
  if id ∈ st.live then (true, { st with live := st.live.erase id })
  else (false, st)

/-! ### Heap lemmas -/

theorem heapLookup_mem {h : List (Int × Todo)} {a : Int} {t : Todo}
    (hl : heapLookup h a = some t) : (a, t) ∈ h := by
  induction h with
  | nil => simp [heapLookup] at hl
  | cons p rest ih =>
    obtain ⟨b, u⟩ := p
    simp only [heapLookup] at hl
    by_cases hb : b = a
    · subst hb
      simp at hl
      subst hl
      exact List.mem_cons_self _ _
    · rw [if_neg hb] at hl
      exact List.mem_cons_of_mem _ (ih hl)

theorem heapLookup_isSome_of_mem_keys {h : List (Int × Todo)} {a : Int}
    (ha : a ∈ h.map Prod.fst) : (heapLookup h a).isSome := by
  induction h with
  | nil => simp at ha
  | cons p rest ih =>
    obtain ⟨b, u⟩ := p
    simp only [List.map_cons, List.mem_cons] at ha
    simp only [heapLookup]
    by_cases hb : b = a
    · simp [hb]
    · rw [if_neg hb]
      rcases ha with ha | ha
    -- ha : b = a in the first branch, contradicting hb
      · exact absurd ha.symm hb
      · exact ih ha

theorem heapSet_keys (h : List (Int × Todo)) (x : Int) (v : Todo) :
    (heapSet h x v).map Prod.fst = h.map Prod.fst := by
  induction h with
  | nil => rfl
  | cons p rest ih =>
    obtain ⟨b, u⟩ := p
    by_cases hb : b = x
    · simp [heapSet, hb]
    · simp [heapSet, hb, ih]

theorem heapSet_lookup_self (h : List (Int × Todo)) (x : Int) (v : Todo) :
    heapLookup (heapSet h x v) x = (heapLookup h x).map (fun _ => v) := by
  induction h with
  | nil => rfl
  | cons p rest ih =>
    obtain ⟨b, u⟩ := p
    by_cases hb : b = x
    · simp [heapSet, heapLookup, hb]
    · simp [heapSet, heapLookup, hb, ih]

theorem heapSet_lookup_ne (h : List (Int × Todo)) {a x : Int} (v : Todo) (hax : a ≠ x) :
    heapLookup (heapSet h x v) a = heapLookup h a := by
  induction h with
  | nil => rfl
  | cons p rest ih =>
    obtain ⟨b, u⟩ := p
    by_cases hb : b = x
    · subst hb
      simp only [heapSet, if_pos rfl, heapLookup]
      rw [if_neg (fun hba => hax hba.symm), if_neg (fun hba => hax hba.symm)]
    · simp only [heapSet, if_neg hb, heapLookup]
      by_cases hba : b = a
      · simp [hba]
      · rw [if_neg hba, if_neg hba, ih]

theorem heapSet_mem {h : List (Int × Todo)} {x : Int} {v : Todo} {p : Int × Todo}
    (hp : p ∈ heapSet h x v) : p ∈ h ∨ (p = (x, v) ∧ x ∈ h.map Prod.fst) := by
  induction h with
  | nil => simp [heapSet] at hp
  | cons q rest ih =>
    obtain ⟨b, u⟩ := q
    by_cases hb : b = x
    · rw [show heapSet ((b, u) :: rest) x v = (b, v) :: rest from by simp [heapSet, hb],
        List.mem_cons] at hp
      rcases hp with hp | hp
      · exact Or.inr ⟨by rw [hp, hb], by simp [hb]⟩
      · exact Or.inl (List.mem_cons_of_mem _ hp)
    · simp only [heapSet, if_neg hb, List.mem_cons] at hp
      rcases hp with hp | hp
      · exact Or.inl (by simp [hp])
      · rcases ih hp with h1 | ⟨h1, h2⟩
        · exact Or.inl (List.mem_cons_of_mem _ h1)
        · exact Or.inr ⟨h1, by simp [h2]⟩

/-! ### The store invariant (claim C5) -/

/-- The store invariant: every key of the map equals its value's id, and the
counter `next` is strictly greater than every id ever issued (the heap
records every allocation ever made, so its key set is exactly the set of
issued ids); together with the bookkeeping facts that keep the pointer model
coherent (no duplicate keys, live keys are allocated). -/
def Store.Inv (st : Store) : Prop :=
  (∀ a ∈ st.live, ∃ t, heapLookup st.heap a = some t ∧ t.id = a) ∧
  (∀ p ∈ st.heap, p.1 < st.next) ∧
  (∀ p ∈ st.heap, p.2.id = p.1) ∧
  st.live.Nodup ∧
  (st.heap.map Prod.fst).Nodup ∧
  (∀ a ∈ st.live, a ∈ st.heap.map Prod.fst)

theorem NewStore_inv : NewStore.Inv := by
  refine ⟨?_, ?_, ?_, ?_, ?_, ?_⟩ <;> simp [NewStore, Store.Inv]

theorem create_inv (st : Store) (title : String) (h : st.Inv) :
    ((st.create title).2).Inv := by
  obtain ⟨hlive, hlt, hid, hnd, hknd, hsub⟩ := h
  have hfresh : st.next ∉ st.heap.map Prod.fst := by
    intro hmem
    obtain ⟨p, hp, hp1⟩ := List.mem_map.mp hmem
    exact absurd (hp1 ▸ hlt p hp) (lt_irrefl st.next)
  have hfreshlive : st.next ∉ st.live := fun hmem => hfresh (hsub _ hmem)
  refine ⟨?_, ?_, ?_, ?_, ?_, ?_⟩
  · intro a ha
    simp only [Store.create, List.mem_cons] at ha
    rcases ha with rfl | ha
    · refine ⟨{ id := st.next, title := title, completed := false }, ?_, rfl⟩
      simp [Store.create, heapLookup]
    · obtain ⟨t, ht, htid⟩ := hlive a ha
      have hne : st.next ≠ a := by
        intro heq
        exact hfreshlive (heq ▸ ha)
      exact ⟨t, by simp [Store.create, heapLookup, if_neg hne, ht], htid⟩
  · intro p hp
    simp only [Store.create, List.mem_cons] at hp ⊢
    rcases hp with rfl | hp
    · simp
    · exact lt_trans (hlt p hp) (lt_add_one _)
  · intro p hp
    simp only [Store.create, List.mem_cons] at hp
    rcases hp with rfl | hp
    · rfl
    · exact hid p hp
  · exact List.nodup_cons.mpr ⟨hfreshlive, hnd⟩
  · simp only [Store.create, List.map_cons]
    exact List.nodup_cons.mpr ⟨hfresh, hknd⟩
  · intro a ha
    simp only [Store.create, List.mem_cons, List.map_cons] at ha ⊢
    rcases ha with rfl | ha
    · exact Or.inl rfl
    · exact Or.inr (hsub a ha)

theorem update_inv (st : Store) (id : Int) (title : String) (c : Bool) (h : st.Inv) :
    ((st.update id title c).2).Inv := by
  obtain ⟨hlive, hlt, hid, hnd, hknd, hsub⟩ := h
  unfold Store.update
  cases hg : st.get id with
  | none => exact ⟨hlive, hlt, hid, hnd, hknd, hsub⟩
  | some t =>
    have hidlive : id ∈ st.live := by
      by_contra hmem
      simp [Store.get, hmem] at hg
    have hlk : heapLookup st.heap id = some t := by
      simpa [Store.get, hidlive] using hg
    have htid : t.id = id := hid _ (heapLookup_mem hlk)
    refine ⟨?_, ?_, ?_, hnd, ?_, ?_⟩
    · intro a ha
      simp only at ha
      by_cases hax : a = id
      · subst hax
        refine ⟨{ t with title := title, completed := c }, ?_, htid⟩
        rw [heapSet_lookup_self, hlk]
        rfl
      · obtain ⟨u, hu, huid⟩ := hlive a ha
        exact ⟨u, by rw [heapSet_lookup_ne _ _ hax, hu], huid⟩
    · intro p hp
      rcases heapSet_mem hp with hp | ⟨rfl, _⟩
      · exact hlt p hp
      · obtain ⟨q, hq, hq1⟩ := List.mem_map.mp (hsub _ hidlive)
        exact lt_of_eq_of_lt hq1.symm (hlt q hq)
    · intro p hp
      rcases heapSet_mem hp with hp | ⟨rfl, _⟩
      · exact hid p hp
      · exact htid
    · simpa [heapSet_keys] using hknd
    · intro a ha
      simpa [heapSet_keys] using hsub a ha

theorem delete_inv (st : Store) (id : Int) (h : st.Inv) :
    ((st.delete id).2).Inv := by
  obtain ⟨hlive, hlt, hid, hnd, hknd, hsub⟩ := h
  unfold Store.delete
  by_cases hmem : id ∈ st.live
  · rw [if_pos hmem]
    refine ⟨?_, hlt, hid, hnd.erase id, hknd, ?_⟩
    · intro a ha
      exact hlive a (List.mem_of_mem_erase ha)
    · intro a ha
      exact hsub a (List.mem_of_mem_erase ha)
  · rw [if_neg hmem]
    exact ⟨hlive, hlt, hid, hnd, hknd, hsub⟩

/-- Claim C5: the store invariant (every key in the todos mapping equals its
value's id; `next` is strictly greater than every id ever issued, so ids are
never reused even after deletion) holds in the initial state and is preserved
by every store operation. -/
theorem c5_store_invariant :
    NewStore.Inv ∧
    (∀ (st : Store) (title : String), st.Inv → ((st.create title).2).Inv) ∧
    (∀ (st : Store) (id : Int) (title : String) (c : Bool),
      st.Inv → ((st.update id title c).2).Inv) ∧
    (∀ (st : Store) (id : Int), st.Inv → ((st.delete id).2).Inv) :=
  ⟨NewStore_inv, create_inv, update_inv, delete_inv⟩

/-- Witness for C5 at concrete inputs: the invariant after creating, updating
and deleting on a fresh store. -/
theorem c5_store_invariant_witness :
    (((NewStore.create "a").2.update 1 "b" true).2.delete 1).2.Inv :=
  c5_store_invariant.2.2.2
    ((NewStore.create "a").2.update 1 "b" true).2 1
    (c5_store_invariant.2.2.1 (NewStore.create "a").2 1 "b" true
      (c5_store_invariant.2.1 NewStore "a" c5_store_invariant.1))

/-! ### Sequences of creations (claim C6) -/

/-- Run `Store.Create` once per title, collecting the returned ids in call
order. -/
def createAll : Store → List String → List Int × Store
  | st, [] => ([], st)
  | st, title :: ts =>
    let p := st.create title
    let q := createAll p.2 ts
    (p.1.id :: q.1, q.2)

/-- The consecutive ids `[n, n+1, ..., n+k-1]`. -/
def idsFrom : Int → Nat → List Int
  | _, 0 => []
  | n, k + 1 => n :: idsFrom (n + 1) k

theorem createAll_fst (ts : List String) : ∀ st : Store,
    (createAll st ts).1 = idsFrom st.next ts.length := by
  induction ts with
  | nil => intro st; rfl
  | cons title ts ih =>
    intro st
    simp only [createAll, List.length_cons, idsFrom]
    rw [ih]
    rfl

theorem idsFrom_le {k : Nat} : ∀ {n m : Int}, m ∈ idsFrom n k → n ≤ m := by
  induction k with
  | zero => intro n m hm; simp [idsFrom] at hm
  | succ k ih =>
    intro n m hm
    simp only [idsFrom, List.mem_cons] at hm
    rcases hm with rfl | hm
    · exact le_refl m
    · have := ih hm
      omega

theorem idsFrom_pairwise (k : Nat) : ∀ n : Int, (idsFrom n k).Pairwise (· < ·) := by
  induction k with
  | zero => intro n; simp [idsFrom]
  | succ k ih =>
    intro n
    simp only [idsFrom]
    refine List.Pairwise.cons ?_ (ih (n + 1))
    intro m hm
    have := idsFrom_le hm
    omega

theorem idsFrom_length (k : Nat) : ∀ n : Int, (idsFrom n k).length = k := by
  induction k with
  | zero => intro n; rfl
  | succ k ih => intro n; simp [idsFrom, ih]

/-- Claim C6: for every sequence of `Create` calls starting from a fresh
store, the returned ids are pairwise distinct, strictly increasing in call
order, and start at 1 (one id per call). -/
theorem c6_create_ids (ts : List String) :
    (createAll NewStore ts).1.Pairwise (· < ·) ∧
    (createAll NewStore ts).1.Nodup ∧
    (createAll NewStore ts).1.head? = (if ts.isEmpty then none else some 1) ∧
    (createAll NewStore ts).1.length = ts.length := by
  have hfst := createAll_fst ts NewStore
  have hp : (createAll NewStore ts).1.Pairwise (· < ·) := by
    rw [hfst]; exact idsFrom_pairwise ts.length NewStore.next
  refine ⟨hp, hp.imp ne_of_lt, ?_, by rw [hfst]; exact idsFrom_length ts.length _⟩
  cases ts with
  | nil => simp [createAll]
  | cons title ts => rw [hfst]; rfl

/-! ### Update semantics (claim C7) -/

/-- Claim C7: if the id is present, `Update` replaces the record's title and
completed fields in place (everything else about the store is unchanged) and
returns the updated record; if the id is absent, it signals failure and the
store is exactly unchanged. -/
theorem c7_update (st : Store) (id : Int) (title : String) (c : Bool) :
    (∀ t, st.get id = some t →
      st.update id title c =
        (some { t with title := title, completed := c },
         { st with heap := heapSet st.heap id { t with title := title, completed := c } }) ∧
      ((st.update id title c).2).get id = some { t with title := title, completed := c }) ∧
    (st.get id = none → st.update id title c = (none, st)) := by
  constructor
  · intro t ht
    have hmem : id ∈ st.live := by
      by_contra hmem
      simp [Store.get, hmem] at ht
    have hlk : heapLookup st.heap id = some t := by
      simpa [Store.get, hmem] using ht
    have heq : st.update id title c =
        (some { t with title := title, completed := c },
         { st with heap := heapSet st.heap id { t with title := title, completed := c } }) := by
      simp only [Store.update, ht]
    refine ⟨heq, ?_⟩
    rw [heq]
    simp only [Store.get, if_pos hmem, heapSet_lookup_self, hlk, Option.map_some']
  · intro h
    simp only [Store.update, h]

/-- Witness for C7 at concrete inputs: updating an existing id replaces the
fields; updating an absent id leaves the store unchanged. -/
theorem c7_update_witness :
    ((NewStore.create "a").2.update 1 "b" true).2.get 1 =
      some { id := 1, title := "b", completed := true } ∧
    (NewStore.create "a").2.update 2 "x" false = (none, (NewStore.create "a").2) :=
  ⟨((c7_update (NewStore.create "a").2 1 "b" true).1
      { id := 1, title := "a", completed := false } rfl).2,
   (c7_update (NewStore.create "a").2 2 "x" false).2 rfl⟩

/-! ### List snapshots and aliasing (claim C4) -/

/-- Counterexample to claim C4 as stated: the content read through a snapshot
returned by `List` is altered by a subsequent `Update` — the slice elements
are pointers into the store, not copies.  After `Create("a")`, the one-element
snapshot reads `{1, "a", false}`; after `Update(1, "b", true)` the same
snapshot reads `{1, "b", true}`. -/
theorem c4_counterexample :
    ((NewStore.create "a").2.list).map ((NewStore.create "a").2.deref) ≠
      ((NewStore.create "a").2.list).map
        ((((NewStore.create "a").2.update 1 "b" true).2).deref) := by
  decide

/-- Claim C4 (amended): `List` returns a fresh sequence with one element per
current todo and never fails, and a subsequent `Delete` does not alter the
content read through a previously returned snapshot; but the elements alias
store-owned records, so a subsequent `Update` of a snapshotted id does alter
the content read through the earlier snapshot. -/
theorem c4_list_snapshot :
    (∀ st : Store, (st.list).length = st.size) ∧
    (∀ (st : Store) (id a : Int), ((st.delete id).2).deref a = st.deref a) ∧
    (∀ (st : Store) (id : Int) (t : Todo) (title : String) (c : Bool),
      st.get id = some t → title ≠ t.title →
      ((st.update id title c).2).deref id ≠ st.deref id) := by
  refine ⟨fun st => rfl, ?_, ?_⟩
  · intro st id a
    unfold Store.delete Store.deref
    split <;> rfl
  · intro st id t title c ht htitle
    have hmem : id ∈ st.live := by
      by_contra hmem
      simp [Store.get, hmem] at ht
    have hlk : heapLookup st.heap id = some t := by
      simpa [Store.get, hmem] using ht
    simp only [Store.update, ht, Store.deref, heapSet_lookup_self, hlk, Option.map_some']
    intro hcontra
    exact htitle (congrArg Todo.title (Option.some.inj hcontra))

/-- Witness for C4 (amended) at a concrete input: the snapshot taken after
`Create("a")` reads differently through the same pointer after
`Update(1, "b", true)`. -/
theorem c4_list_snapshot_witness :
    (((NewStore.create "a").2.update 1 "b" true).2).deref 1 ≠
      (NewStore.create "a").2.deref 1 :=
  c4_list_snapshot.2.2 (NewStore.create "a").2 1
    { id := 1, title := "a", completed := false } "b" true rfl (by decide)

/-! ### The logging middleware's status writer (claim C3) -/

/-- One call a handler makes on its `http.ResponseWriter`: either
`WriteHeader(code)` or a body write. -/
inductive WriteEvent where
  | header (code : Nat)
  | data (s : String)
deriving Repr, DecidableEq

/-- One line emitted by `withLogging`: `log.Printf("%s %s %d %v", r.Method,
r.URL.Path, lw.status, time.Since(start))`. -/
structure LogLine where
  method : String
  path : String
  status : Nat
  elapsed : Nat
deriving Repr, DecidableEq

/-- One call through the `statusWriter` wrapper.  The state is the `status`
field together with the calls forwarded so far to the wrapped writer:
`WriteHeader` stores the code in `status` and forwards the call; body writes
reach the embedded writer directly.  The wrapper is built as
`&statusWriter{w, http.StatusOK}`, so the status starts at 200. -/
def statusWriterStep : Nat × List WriteEvent → WriteEvent → Nat × List WriteEvent
  | (_, fwd), WriteEvent.header c => (c, fwd ++ [WriteEvent.header c])
  | (s, fwd), WriteEvent.data d => (s, fwd ++ [WriteEvent.data d])

/-- Run a handler's writes through a fresh `statusWriter`; the result is the
final `status` field and what reached the wrapped writer. -/
def runStatusWriter (events : List WriteEvent) : Nat × List WriteEvent :=
  events.foldl statusWriterStep (200, [])

/-- `withLogging`'s log line for one request, given the writes the inner
handler performed and the elapsed time. -/
def withLogging (method path : String) (events : List WriteEvent) (elapsed : Nat) : LogLine :=
  { method := method, path := path, status := (runStatusWriter events).1, elapsed := elapsed }

/-- The status codes a handler writes, in order. -/
def writtenStatuses (events : List WriteEvent) : List Nat :=
  events.filterMap (fun e => match e with
    | WriteEvent.header c => some c
    | WriteEvent.data _ => none)

/-- The first status code written, 200 when none is. -/
def firstWrittenStatus (events : List WriteEvent) : Nat :=
  (writtenStatuses events).head?.getD 200

/-- The last status code written, 200 when none is. -/
def lastWrittenStatus (events : List WriteEvent) : Nat :=
  (writtenStatuses events).getLast?.getD 200

theorem getLastD_cons (s c : Nat) (l : List Nat) :
    (c :: l).getLast?.getD s = l.getLast?.getD c := by
  cases l with
  | nil => rfl
  | cons x xs =>
    rw [List.getLast?_cons_cons]
    obtain ⟨y, hy⟩ :=
      Option.isSome_iff_exists.mp (List.getLast?_isSome.mpr (List.cons_ne_nil x xs))
    rw [hy]
    rfl

theorem runStatusWriter_aux (events : List WriteEvent) : ∀ (s : Nat) (fwd : List WriteEvent),
    events.foldl statusWriterStep (s, fwd) =
      ((writtenStatuses events).getLast?.getD s, fwd ++ events) := by
  induction events with
  | nil => intro s fwd; simp [writtenStatuses]
  | cons e rest ih =>
    intro s fwd
    cases e with
    | header c =>
      simp only [List.foldl_cons, statusWriterStep]
      rw [ih]
      simp [writtenStatuses, getLastD_cons]
    | data d =>
      simp only [List.foldl_cons, statusWriterStep]
      rw [ih]
      simp [writtenStatuses]

/-- Counterexample to claim C3 as stated: when the handler writes two status
codes, the logged status is not the first one — `w.status = code` runs on
every `WriteHeader` call, so the last write wins. -/
theorem c3_counterexample :
    (withLogging "GET" "/todos" [WriteEvent.header 200, WriteEvent.header 404] 5).status ≠
      firstWrittenStatus [WriteEvent.header 200, WriteEvent.header 404] := by
  decide

/-- Claim C3 (amended): the wrapper forwards every write unchanged, and the
emitted log line carries the request method, the path, the elapsed duration,
and the recorded status — which is the LAST status code the handler wrote
(200 when it wrote none), not the first; when the handler writes at most one
status code the two readings coincide, so the original claim only breaks on
handlers that write twice. -/
theorem c3_logging (method path : String) (events : List WriteEvent) (elapsed : Nat) :
    (runStatusWriter events).2 = events ∧
    withLogging method path events elapsed =
      { method := method, path := path, status := lastWrittenStatus events,
        elapsed := elapsed } ∧
    ((writtenStatuses events).length ≤ 1 →
      lastWrittenStatus events = firstWrittenStatus events) := by
  have h := runStatusWriter_aux events 200 []
  refine ⟨?_, ?_, ?_⟩
  · rw [runStatusWriter, h]
    simp
  · unfold withLogging lastWrittenStatus runStatusWriter
    rw [h]
  · intro hlen
    unfold lastWrittenStatus firstWrittenStatus
    cases hw : writtenStatuses events with
    | nil => rfl
    | cons c rest =>
      rw [hw] at hlen
      cases rest with
      | nil => simp
      | cons d ds => simp at hlen

/-- Witness for C3 (amended) at a concrete input: a handler that writes one
status code and a body logs that status, which is also the first one
written. -/
theorem c3_logging_witness :
    lastWrittenStatus [WriteEvent.header 404, WriteEvent.data "not found"] =
      firstWrittenStatus [WriteEvent.header 404, WriteEvent.data "not found"] :=
  (c3_logging "GET" "/healthz" [WriteEvent.header 404, WriteEvent.data "not found"] 3).2.2
    (by decide)

/-! ### Metrics -/

/-- The Go struct `Metrics` (`Requests`, `TotalTodos`; `ActiveClients` is
never read or written and is dropped). -/
structure Metrics where
  requests : Nat
  totalTodos : Nat
deriving Repr, DecidableEq

/-- `Metrics.IncRequests`. -/
def Metrics.incRequests (m : Metrics) : Metrics := { m with requests := m.requests + 1 }

/-- `Metrics.Snapshot`: store the current store size in `TotalTodos`, then
return the requests / total_todos pair, together with the updated
collector. -/
def Metrics.snapshot (m : Metrics) (st : Store) : (Nat × Nat) × Metrics :=
  ((m.requests, st.size), { m with totalTodos := st.size })

/-! ### Requests, responses, and Go string helpers -/

/-- `unicode.IsSpace`: the Unicode White_Space property, the class
`strings.TrimSpace` trims — U+0009..U+000D (tab, LF, vertical tab, form
feed, CR), space, NEL, no-break space, ogham space mark, U+2000..U+200A,
line separator, paragraph separator, narrow no-break space, medium
mathematical space, ideographic space. -/
def goIsSpace (c : Char) : Bool :=
  let n := c.toNat
  decide ((9 ≤ n ∧ n ≤ 13) ∨ n = 32 ∨ n = 0x85 ∨ n = 0xA0 ∨ n = 0x1680 ∨
    (0x2000 ≤ n ∧ n ≤ 0x200A) ∨ n = 0x2028 ∨ n = 0x2029 ∨ n = 0x202F ∨
    n = 0x205F ∨ n = 0x3000)

/-- `strings.TrimSpace`, character by character: drop White_Space characters
from both ends. -/
def trimSpace (s : String) : String :=
  ⟨((s.data.dropWhile goIsSpace).reverse.dropWhile goIsSpace).reverse⟩

/-- Whether `pre` is a prefix of `s` (the `ServeMux` subtree test). -/
def strStartsWith (s pre : String) : Bool := pre.data.isPrefixOf s.data

/-- Drop the first `n` characters (`strings.TrimPrefix` once the prefix is
known to be present). -/
def strDrop (s : String) (n : Nat) : String := ⟨s.data.drop n⟩

/-- Decimal digits to a number; fails on a non-digit. -/
def parseDigitsAux : List Char → Nat → Option Nat
  | [], acc => some acc
  | c :: cs, acc => if c.isDigit then parseDigitsAux cs (acc * 10 + (c.toNat - '0'.toNat)) else none

/-- At least one decimal digit. -/
def parseDigits : List Char → Option Nat
  | [] => none
  | c :: cs => parseDigitsAux (c :: cs) 0

/-- `math.MaxInt64`. -/
def maxInt64 : Nat := 2 ^ 63 - 1

/-- `strconv.Atoi` (= `ParseInt(s, 10, 64)` on a 64-bit platform): an
optional sign followed by one or more decimal digits parses to the signed
value when that value fits in an int64; the empty string, any other
character, and any value outside the int64 range are errors (`ErrRange`
counts as `err != nil`, so the handler answers 400 exactly as for any other
parse failure). -/
def atoi (s : String) : Option Int :=
  match s.data with
  | '+' :: rest =>
    (parseDigits rest).bind (fun n => if n ≤ maxInt64 then some (n : Int) else none)
  | '-' :: rest =>
    (parseDigits rest).bind (fun n => if n ≤ maxInt64 + 1 then some (-(n : Int)) else none)
  | l =>
    (parseDigits l).bind (fun n => if n ≤ maxInt64 then some (n : Int) else none)

/-- An inbound request.  `body` models the JSON decode boundary: `none` means
the decoder fails on the request body, `some (title, completed)` gives the
decoded fields (a field absent from the JSON decodes to its zero value, `""`
or `false`; the POST handler decodes only `Title`, so it ignores the second
component). -/
structure Request where
  method : String
  path : String
  body : Option (String × Bool)
deriving Repr, DecidableEq

/-- What a handler writes back: a status code and a body, with JSON encoding
kept at the serialization boundary.  `jsonArr` carries the content read
through each pointer of the listed slice at encoding time; `text` carries
plain-text bodies (`http.Error` appends a newline on the wire, elided
here). -/
inductive RespBody where
  | text (s : String)
  | jsonTodo (t : Todo)
  | jsonArr (ts : List (Option Todo))
  | jsonMetrics (requests totalTodos : Nat)
  | empty
deriving Repr, DecidableEq

structure Response where
  status : Nat
  body : RespBody
deriving Repr, DecidableEq

/-- `http.Error(w, msg, code)`. -/
def httpError (msg : String) (code : Nat) : Response :=
  { status := code, body := RespBody.text msg }

/-! ### Handlers and the mux -/

/-- `healthHandler`: writes 200 and `"ok"` without ever looking at the
request (its request parameter is `_`), so every method gets the same
answer. -/
def healthHandler (_ : Request) : Response := { status := 200, body := RespBody.text "ok" }

/-- The `/todos` handler: `GET` lists (the encoder reads each pointer of the
snapshot), `POST` decodes the body and rejects it when the decoder fails or
the title is empty after trimming, every other method is 405. -/
def todosHandler (st : Store) (r : Request) : Response × Store :=
  if r.method = "GET" then
    ({ status := 200, body := RespBody.jsonArr ((st.list).map st.deref) }, st)
  else if r.method = "POST" then
    match r.body with
    | none => (httpError "invalid payload" 400, st)
    | some (title, _) =>
      if trimSpace title = "" then (httpError "invalid payload" 400, st)
      else
        let p := st.create title
        ({ status := 201, body := RespBody.jsonTodo p.1 }, p.2)
  else
    (httpError "method not allowed" 405, st)

/-- The `/todos/` subtree handler: strip the `/todos/` pattern from the path,
parse the remainder as a base-10 integer (400 on failure), then dispatch on
the method: `GET` looks up, `PUT` decodes and updates, `DELETE` deletes,
anything else is 405. -/
def todoIdHandler (st : Store) (r : Request) : Response × Store :=
  match atoi (strDrop r.path "/todos/".length) with
  | none => (httpError "invalid id" 400, st)
  | some id =>
    if r.method = "GET" then
      match st.get id with
      | some t => ({ status := 200, body := RespBody.jsonTodo t }, st)
      | none => (httpError "not found" 404, st)
    else if r.method = "PUT" then
      match r.body with
      | none => (httpError "invalid payload" 400, st)
      | some (title, completed) =>
        match st.update id title completed with
        | (some t, st') => ({ status := 200, body := RespBody.jsonTodo t }, st')
        | (none, st') => (httpError "not found" 404, st')
    else if r.method = "DELETE" then
      let p := st.delete id
      if p.1 then ({ status := 204, body := RespBody.empty }, p.2)
      else (httpError "not found" 404, p.2)
    else
      (httpError "method not allowed" 405, st)

/-- The `http.ServeMux` built in `main`: exact patterns `/healthz`,
`/metrics` and `/todos`, and the subtree pattern `/todos/` matching every
path it prefixes; any other path falls to the mux's built-in `NotFound`
handler (404, `"404 page not found"`).  The `/metrics` handler never calls
`WriteHeader`, so its first body write carries the implicit 200. -/
def serveMux (r : Request) (st : Store) (m : Metrics) : Response × Store × Metrics :=
  if r.path = "/healthz" then (healthHandler r, st, m)
  else if r.path = "/metrics" then
    let p := Metrics.snapshot m st
    ({ status := 200, body := RespBody.jsonMetrics p.1.1 p.1.2 }, st, p.2)
  else if r.path = "/todos" then
    let p := todosHandler st r
    (p.1, p.2, m)
  else if strStartsWith r.path "/todos/" then
    let p := todoIdHandler st r
    (p.1, p.2, m)
  else
    ({ status := 404, body := RespBody.text "404 page not found" }, st, m)

/-- The metrics middleware: `m.IncRequests()` first, then the inner
handler. -/
def withMetrics (r : Request) (st : Store) (m : Metrics) : Response × Store × Metrics :=
  serveMux r st m.incRequests

/-- Serve a sequence of inbound requests through the middleware chain,
threading the shared store and metrics.  (The logging stage reads state but
never changes it, so it does not appear in the state transition.) -/
def handleAll : List Request → Store × Metrics → Store × Metrics
  | [], s => s
  | r :: rs, s => handleAll rs (withMetrics r s.1 s.2).2

/-! ### Routing claims -/

/-- Counterexample to claim C1 as stated: no handler is registered for
`/version` (the mux patterns are `/healthz`, `/metrics`, `/todos` and
`/todos/`), so `GET /version` gets the mux's built-in 404, not a 200 version
string. -/
theorem c1_counterexample :
    (serveMux { method := "GET", path := "/version", body := none } NewStore
      { requests := 0, totalTodos := 0 }).1.status = 404 ∧
    (serveMux { method := "GET", path := "/version", body := none } NewStore
      { requests := 0, totalTodos := 0 }).1.status ≠ 200 := by
  decide

/-- Claim C1 (amended): `/version` is not a registered route; a request for
it (any method) falls through every pattern and receives the mux's built-in
404 with body `404 page not found`, leaving store and metrics untouched.
The build version string exists only in the startup log line. -/
theorem c1_version_route (st : Store) (m : Metrics) (method : String)
    (body : Option (String × Bool)) :
    serveMux { method := method, path := "/version", body := body } st m =
      ({ status := 404, body := RespBody.text "404 page not found" }, st, m) := by
  simp +decide [serveMux]

/-- Counterexample to claim C2 as stated: `healthHandler` never looks at the
method, so `POST /healthz` gets 200, not 405. -/
theorem c2_counterexample :
    (serveMux { method := "POST", path := "/healthz", body := none } NewStore
      { requests := 0, totalTodos := 0 }).1.status = 200 ∧
    (serveMux { method := "POST", path := "/healthz", body := none } NewStore
      { requests := 0, totalTodos := 0 }).1.status ≠ 405 := by
  decide

/-- A path matched by the `/todos/` subtree pattern matches none of the
exact patterns. -/
theorem subtree_path_ne (path : String) (hpre : strStartsWith path "/todos/" = true) :
    path ≠ "/healthz" ∧ path ≠ "/metrics" ∧ path ≠ "/todos" := by
  refine ⟨?_, ?_, ?_⟩ <;> intro he <;> rw [he] at hpre <;> exact absurd hpre (by decide)

/-- Claim C2 (amended): a method outside the routing table yields 405 on
`/todos`, and on `/todos/{id}` when the id parses (an id that fails to parse
— malformed, or outside the int64 range — yields 400 for EVERY method,
before the method is even examined); but `/healthz` and `/metrics` do not
check the method at all — every method receives their normal 200
response. -/
theorem c2_known_path_methods (st : Store) (m : Metrics) (method : String)
    (body : Option (String × Bool)) :
    (method ≠ "GET" → method ≠ "POST" →
      (serveMux { method := method, path := "/todos", body := body } st m).1.status = 405) ∧
    (∀ (path : String) (id : Int), strStartsWith path "/todos/" = true →
      atoi (strDrop path "/todos/".length) = some id →
      method ≠ "GET" → method ≠ "PUT" → method ≠ "DELETE" →
      (serveMux { method := method, path := path, body := body } st m).1.status = 405) ∧
    (∀ path : String, strStartsWith path "/todos/" = true →
      atoi (strDrop path "/todos/".length) = none →
      (serveMux { method := method, path := path, body := body } st m).1.status = 400) ∧
    ((serveMux { method := method, path := "/healthz", body := body } st m).1.status = 200) ∧
    ((serveMux { method := method, path := "/metrics", body := body } st m).1.status = 200) := by
  refine ⟨?_, ?_, ?_, ?_, ?_⟩
  · intro h1 h2
    simp only [serveMux, if_true, todosHandler]
    rw [if_neg h1, if_neg h2]
    rfl
  · intro path id hpre hid h1 h2 h3
    obtain ⟨hne1, hne2, hne3⟩ := subtree_path_ne path hpre
    simp only [serveMux]
    rw [if_neg hne1, if_neg hne2, if_neg hne3, if_pos hpre]
    simp only [todoIdHandler, hid]
    rw [if_neg h1, if_neg h2, if_neg h3]
    rfl
  · intro path hpre hid
    obtain ⟨hne1, hne2, hne3⟩ := subtree_path_ne path hpre
    simp only [serveMux]
    rw [if_neg hne1, if_neg hne2, if_neg hne3, if_pos hpre]
    simp only [todoIdHandler, hid]
    rfl
  · simp only [serveMux, if_true]
    rfl
  · simp only [serveMux, if_true]
    rfl

/-- Witness for C2 (amended) at concrete inputs: `PATCH` gets 405 on `/todos`
and `/todos/7`; `PATCH /todos/99999999999999999999` gets 400 because the id
overflows an int64; `POST /healthz` and `PUT /metrics` get 200. -/
theorem c2_known_path_methods_witness :
    (serveMux { method := "PATCH", path := "/todos", body := none } NewStore
      { requests := 0, totalTodos := 0 }).1.status = 405 ∧
    (serveMux { method := "PATCH", path := "/todos/7", body := none } NewStore
      { requests := 0, totalTodos := 0 }).1.status = 405 ∧
    (serveMux { method := "PATCH", path := "/todos/99999999999999999999", body := none }
      NewStore { requests := 0, totalTodos := 0 }).1.status = 400 ∧
    (serveMux { method := "POST", path := "/healthz", body := some ("x", true) } NewStore
      { requests := 0, totalTodos := 0 }).1.status = 200 ∧
    (serveMux { method := "PUT", path := "/metrics", body := none } NewStore
      { requests := 0, totalTodos := 0 }).1.status = 200 :=
  ⟨(c2_known_path_methods NewStore { requests := 0, totalTodos := 0 } "PATCH" none).1
      (by decide) (by decide),
   (c2_known_path_methods NewStore { requests := 0, totalTodos := 0 } "PATCH" none).2.1
      "/todos/7" 7 (by decide) (by decide) (by decide) (by decide) (by decide),
   (c2_known_path_methods NewStore { requests := 0, totalTodos := 0 } "PATCH" none).2.2.1
      "/todos/99999999999999999999" (by decide) (by decide),
   (c2_known_path_methods NewStore { requests := 0, totalTodos := 0 } "POST"
      (some ("x", true))).2.2.2.1,
   (c2_known_path_methods NewStore { requests := 0, totalTodos := 0 } "PUT" none).2.2.2.2⟩

/-- Claim C8: a `POST /todos` whose body fails to decode, or whose decoded
title trims to the empty string, is rejected with 400 and the store comes
back exactly as it was — nothing created, `next` not advanced. -/
theorem c8_create_validation (st : Store) (m : Metrics) (title : String) (c : Bool)
    (h : trimSpace title = "") :
    serveMux { method := "POST", path := "/todos", body := none } st m =
      (httpError "invalid payload" 400, st, m) ∧
    serveMux { method := "POST", path := "/todos", body := some (title, c) } st m =
      (httpError "invalid payload" 400, st, m) := by
  refine ⟨?_, ?_⟩ <;> simp +decide [serveMux, todosHandler, httpError, h]

/-- Witness for C8 at a concrete input: a whitespace-only title — here a
space, a vertical tab and a no-break space, all in Go's White_Space class —
is rejected with 400 and a fresh store is unchanged. -/
theorem c8_create_validation_witness :
    serveMux { method := "POST", path := "/todos", body := some (" \x0b ", false) }
      NewStore { requests := 0, totalTodos := 0 } =
      (httpError "invalid payload" 400, NewStore, { requests := 0, totalTodos := 0 }) :=
  (c8_create_validation NewStore { requests := 0, totalTodos := 0 } " \x0b " false
    (by decide)).2

/-- Claim C10: when the decoded title survives trimming, the created todo is
stored and returned with the VERBATIM submitted title — trimming is only the
emptiness test, never applied to the stored data. -/
theorem c10_title_verbatim (st : Store) (m : Metrics) (title : String) (c : Bool)
    (h : trimSpace title ≠ "") :
    (serveMux { method := "POST", path := "/todos", body := some (title, c) } st m).1 =
      { status := 201,
        body := RespBody.jsonTodo { id := st.next, title := title, completed := false } } ∧
    ((serveMux { method := "POST", path := "/todos", body := some (title, c) } st m).2.1).get
        st.next = some { id := st.next, title := title, completed := false } := by
  have hred : serveMux { method := "POST", path := "/todos", body := some (title, c) } st m =
      ({ status := 201,
         body := RespBody.jsonTodo { id := st.next, title := title, completed := false } },
       (st.create title).2, m) := by
    simp +decide [serveMux, todosHandler, h, Store.create]
  refine ⟨by rw [hred], ?_⟩
  rw [hred]
  simp [Store.create, Store.get, heapLookup]

/-- Witness for C10 at a concrete input: a title with surrounding whitespace
is stored with the whitespace intact. -/
theorem c10_title_verbatim_witness :
    ((serveMux { method := "POST", path := "/todos", body := some ("  buy milk  ", false) }
        NewStore { requests := 0, totalTodos := 0 }).2.1).get 1 =
      some { id := 1, title := "  buy milk  ", completed := false } :=
  (c10_title_verbatim NewStore { requests := 0, totalTodos := 0 } "  buy milk  " false
    (by decide)).2

/-! ### Metrics claims (C9) -/

theorem serveMux_requests (r : Request) (st : Store) (m : Metrics) :
    ((serveMux r st m).2.2).requests = m.requests := by
  unfold serveMux
  repeat' split
  all_goals rfl

theorem handleAll_requests (reqs : List Request) : ∀ s : Store × Metrics,
    ((handleAll reqs s).2).requests = s.2.requests + reqs.length := by
  induction reqs with
  | nil => intro s; simp [handleAll]
  | cons r rs ih =>
    intro s
    simp only [handleAll, List.length_cons]
    rw [ih]
    unfold withMetrics
    rw [serveMux_requests r s.1 s.2.incRequests]
    simp [Metrics.incRequests]
    omega

/-- Claim C9: after M inbound requests of any kind — hitting the store or not
— the requests counter equals M; and `Snapshot` reports, and records in
`TotalTodos`, exactly the store's size at snapshot time. -/
theorem c9_metrics (reqs : List Request) :
    ((handleAll reqs (NewStore, { requests := 0, totalTodos := 0 })).2).requests =
      reqs.length ∧
    ∀ (m : Metrics) (st : Store),
      (Metrics.snapshot m st).1.2 = st.size ∧ (Metrics.snapshot m st).2.totalTodos = st.size := by
  refine ⟨?_, fun m st => ⟨rfl, rfl⟩⟩
  rw [handleAll_requests]
  simp

end TodoSrv
